import Mathlib

/-!
Verification development for the xous-core secure boot-loader and encrypted-swap
subsystem.  The definitions below are a shallow embedding of:

  * `src/loader/src/platform/precursor/swap.rs` (the loader-side `SwapHal`),
  * `src/services/xous-swapper/src/platform/precursor/hw.rs` (the runtime
    swapper's `SwapHal`),
  * `src/loader/src/phase1.rs` (`copy_args` CRC patching, the IniE/IniF copy
    loop, and the IniS swap transcoding loop of `copy_processes`).

Machine integers (`usize` on the 32-bit RISC-V target, `u32`, `u8`) are embedded
as `Nat` with explicit `% 2 ^ 32` / `% 256` reductions at the points where the
source performs a cast or where the value is constrained by its type.  Bitwise
`x & !(PAGE_SIZE - 1)` is embedded as `x - x % 4096` and `x & (PAGE_SIZE - 1)`
as `x % 4096`, which agree with the source for every natural number.

The AES-256-GCM-SIV cipher comes from the external `aes_gcm_siv` crate, which is
not part of this repository; it is embedded as an ideal authenticated cipher
(`idealEncryptDetached` / `idealDecryptDetached`): encryption is an invertible
keystream mask, and the detached tag is a value that determines the key, nonce,
associated data and ciphertext it authenticates.  This reflects the AEAD
contract the source relies on (decrypting with the same key/nonce/aad returns
the plaintext; any change to them, to the ciphertext or to the tag makes the
tag check fail).  Rust panics are embedded as explicit error values.
-/

/-- `PAGE_SIZE` from the loader (4096 bytes). -/
def PAGE_SIZE : Nat := 4096

/-- `size_of::<Tag>()` for AES-GCM-SIV: a MAC tag is 16 bytes. -/
def tagBytes : Nat := 16

/-- Embedding of `x & !(PAGE_SIZE - 1)`: round an address down to its page base. -/
def maskPage (a : Nat) : Nat := a - a % 4096

/-- Embedding of `x & (PAGE_SIZE - 1)`: the offset of an address inside its page. -/
def pageOffset (a : Nat) : Nat := a % 4096

/-- `remaining_in_page(addr)` from `phase1.rs`: `PAGE_SIZE - (addr & (PAGE_SIZE - 1))`. -/
def remaining_in_page (addr : Nat) : Nat := PAGE_SIZE - addr % 4096

/-- A detached tag of the ideal AEAD: it records exactly the key, nonce,
associated data and ciphertext it authenticates, so the tag check of
`idealDecryptDetached` fails whenever any of them changed.  This embeds the
contract of the external `aes_gcm_siv` crate's 16-byte `Tag`. -/
structure IdealTag where
  key : List Nat
  nonce : List Nat
  aad : List Nat
  ct : List Nat
deriving DecidableEq, Repr

/-- One keystream byte derived from key and nonce (any key/nonce-dependent value
works for the ideal cipher; the choice is irrelevant to the theorems). -/
def ksByte (key nonce : List Nat) : Nat :=
  (key.foldl (fun a b => (a * 131 + b) % 65536) 7 +
    nonce.foldl (fun a b => (a * 131 + b) % 65536) 13) % 256

/-- The keystream mask of the ideal cipher: XOR every byte with `ksByte`.
It is an involution, so it serves as both encryption and decryption. -/
def xmask (key nonce : List Nat) (data : List Nat) : List Nat :=
  data.map (fun b => b ^^^ ksByte key nonce)

/-- Ideal `encrypt_in_place_detached`: returns the ciphertext and the detached tag. -/
def idealEncryptDetached (key nonce aad pt : List Nat) : List Nat × IdealTag :=
  let ct := xmask key nonce pt
  (ct, { key := key, nonce := nonce, aad := aad, ct := ct })

/-- Ideal `decrypt_in_place_detached`: verifies the tag against the key, nonce,
aad and ciphertext, and returns the plaintext only when it matches. -/
def idealDecryptDetached (key nonce aad ct : List Nat) (tag : IdealTag) :
    Option (List Nat) :=
  if tag = { key := key, nonce := nonce, aad := aad, ct := ct } then
    some (xmask key nonce ct)
  else
    none

/-- The 12-byte nonce built by `encrypt_swap_to` / `decrypt_swap_from` (both in
the loader's `swap.rs` and the swapper's `hw.rs`):

  * bytes 0..4: `swap_count` big-endian (the loader fixes it to 0),
  * byte 4: zero (left over from the array initializer),
  * byte 5: the process id (`u8`),
  * bytes 6..9: the top three big-endian bytes of the page-masked swap offset
    cast to `u32`,
  * bytes 9..12: the top three big-endian bytes of the page-masked virtual
    address cast to `u32`. -/
def swapNonce (swapCount pid off vaddr : Nat) : List Nat :=
  let sc := swapCount % 2 ^ 32
  let p := maskPage (off % 2 ^ 32)
  let w := maskPage (vaddr % 2 ^ 32)
  [sc / 2 ^ 24 % 256, sc / 2 ^ 16 % 256, sc / 2 ^ 8 % 256, sc % 256,
   0, pid % 256,
   p / 2 ^ 24 % 256, p / 2 ^ 16 % 256, p / 2 ^ 8 % 256,
   w / 2 ^ 24 % 256, w / 2 ^ 16 % 256, w / 2 ^ 8 % 256]

/-- The loader-side `SwapHal` state (`src/loader/src/platform/precursor/swap.rs`).
The source swap image and the destination swap RAM are kept at page
granularity: `srcDataPages i` / `dstData i` is the ciphertext page starting at
byte offset `i * 4096` of the respective area (`none` when that page was never
written; reading such a page yields bytes that fail authentication), and
`srcMacPages i` / `dstMac i` is the MAC-table entry at byte offset `i * 16`,
which is exactly the tag the source stores for ciphertext page `i`. -/
structure LoaderSwapHal where
  srcDataPages : Nat → Option (List Nat)
  srcMacPages : Nat → Option IdealTag
  partial_nonce : List Nat
  aad : List Nat
  srcCipherKey : List Nat
  dstData : Nat → Option (List Nat)
  dstMac : Nat → Option IdealTag
  dstCipherKey : List Nat
  buf_addr : Nat
  buf : List Nat

/-- The ways the embedded loader code can panic. -/
inductive LoaderPanic where
  | assertFailed
  | decryptError
  | unwrapNone
  | nonMonotonicSections
deriving DecidableEq, Repr

/-- Outcome of a swap decryption call, distinguishing a page successfully
returned, a typed `aes_gcm_siv::Error` surfaced to the caller, and a Rust
panic. -/
inductive DecryptOutcome where
  | ok (page : List Nat)
  | typedError
  | panicked (why : LoaderPanic)
deriving DecidableEq, Repr

/-- True when a `DecryptOutcome` is a successfully returned page. -/
def decOk : DecryptOutcome → Bool
  | .ok _ => true
  | _ => false

/-- Loader `SwapHal::decrypt_src_page_at` (swap.rs lines 94-118): asserts the
offset is page-aligned, loads the source ciphertext page into `buf`, builds the
nonce from the big-endian page offset followed by the 8-byte partial nonce,
and decrypts under the FLASH source key `src_cipher`, panicking on tag
mismatch. -/
def LoaderSwapHal.decrypt_src_page_at (h : LoaderSwapHal) (offset : Nat) :
    Except LoaderPanic LoaderSwapHal :=
  if offset % 4096 ≠ 0 then .error .assertFailed
  else
    let off32 := offset % 2 ^ 32
    let nonce := [off32 / 2 ^ 24 % 256, off32 / 2 ^ 16 % 256, off32 / 2 ^ 8 % 256,
      off32 % 256] ++ h.partial_nonce
    match h.srcDataPages (offset / 4096), h.srcMacPages (offset / 4096) with
    | some ct, some tag =>
      match idealDecryptDetached h.srcCipherKey nonce h.aad ct tag with
      | some pt => .ok { h with buf_addr := offset, buf := pt }
      | none => .error .decryptError
    | _, _ => .error .decryptError

/-- Loader `SwapHal::encrypt_swap_to` (swap.rs lines 128-148): asserts the
buffer is one page and the destination offset page-aligned, builds the nonce
with swap-count 0, `nonce[5] = src_pid`, the masked destination offset and the
masked source virtual address, encrypts — with `self.src_cipher`, exactly as
the source line 140 does — and stores the ciphertext page and its tag at the
matching index of the destination data and MAC areas. -/
def LoaderSwapHal.encrypt_swap_to (h : LoaderSwapHal) (buf : List Nat)
    (dest_offset src_vaddr src_pid : Nat) : Except LoaderPanic LoaderSwapHal :=
  if buf.length ≠ PAGE_SIZE then .error .assertFailed
  else if dest_offset % 4096 ≠ 0 then .error .assertFailed
  else
    let nonce := swapNonce 0 src_pid dest_offset src_vaddr
    let enc := idealEncryptDetached h.srcCipherKey nonce [] buf
    .ok { h with
      dstData := fun i => if i = dest_offset / 4096 then some enc.1 else h.dstData i,
      dstMac := fun i => if i = dest_offset / 4096 then some enc.2 else h.dstMac i }

/-- Loader `SwapHal::decrypt_swap_from` (swap.rs lines 152-175): asserts the
source offset is page-aligned, rebuilds the nonce from swap-count 0, the pid,
the masked source offset and the masked destination virtual address, reads the
tag from the MAC area and the ciphertext page from the data area, and decrypts
with `self.src_cipher` (source line 166).  On tag mismatch the source panics
(`panic!("Decryption error from swap ram: ...")`), embedded as
`.panicked .decryptError`; there is no typed-error return path. -/
def LoaderSwapHal.decrypt_swap_from (h : LoaderSwapHal)
    (src_offset dst_vaddr dst_pid : Nat) : DecryptOutcome :=
  if src_offset % 4096 ≠ 0 then .panicked .assertFailed
  else
    let nonce := swapNonce 0 dst_pid src_offset dst_vaddr
    match h.dstMac (src_offset / 4096), h.dstData (src_offset / 4096) with
    | some tag, some ct =>
      match idealDecryptDetached h.srcCipherKey nonce [] ct tag with
      | some pt => .ok pt
      | none => .panicked .decryptError
    | _, _ => .panicked .decryptError

/-- The state the loader hal reaches after a successful `encrypt_swap_to`
(`h` itself when the call's assertions fail). -/
def afterEncrypt (h : LoaderSwapHal) (buf : List Nat)
    (dest_offset src_vaddr src_pid : Nat) : LoaderSwapHal :=
  match h.encrypt_swap_to buf dest_offset src_vaddr src_pid with
  | .ok h2 => h2
  | .error _ => h

/-- Replace the stored ciphertext page at slot `i` (tampering with
`dst_data_area[i*PAGE..]`). -/
def setSlotData (h : LoaderSwapHal) (i : Nat) (ct : List Nat) : LoaderSwapHal :=
  { h with dstData := fun j => if j = i then some ct else h.dstData j }

/-- Replace the stored MAC-table entry at slot `i` (tampering with
`dst_mac_area[i*16..]`). -/
def setSlotMac (h : LoaderSwapHal) (i : Nat) (tag : IdealTag) : LoaderSwapHal :=
  { h with dstMac := fun j => if j = i then some tag else h.dstMac j }

/-- The runtime swapper's `SwapHal` state
(`src/services/xous-swapper/src/platform/precursor/hw.rs`), with the same
page-granular view of the swap RAM data and MAC areas. -/
structure SwapperHal where
  dstData : Nat → Option (List Nat)
  dstMac : Nat → Option IdealTag
  cipherKey : List Nat

/-- Swapper `SwapHal::decrypt_swap_from` (hw.rs lines 82-110): asserts the
offset is page-aligned and the buffer one page, rebuilds the nonce (here the
swap count is a parameter), reads tag and ciphertext, and returns the result
of `decrypt_in_place_detached` directly: `Ok(())` on success and the typed
`aes_gcm_siv::Error` on tag mismatch — it never panics on a failed tag check. -/
def SwapperHal.decrypt_swap_from (h : SwapperHal) (buf : List Nat)
    (swap_count src_offset dst_vaddr dst_pid : Nat) : DecryptOutcome :=
  if src_offset % 4096 ≠ 0 then .panicked .assertFailed
  else if buf.length ≠ PAGE_SIZE then .panicked .assertFailed
  else
    let nonce := swapNonce swap_count dst_pid src_offset dst_vaddr
    match h.dstMac (src_offset / 4096), h.dstData (src_offset / 4096) with
    | some tag, some ct =>
      match idealDecryptDetached h.cipherKey nonce [] ct tag with
      | some pt => .ok pt
      | none => .typedError
    | _, _ => .typedError

/-- Loader `SwapHal::new` MAC-table size (swap.rs line 36):
`mac_size = (swap.ram_size / 4096) * size_of::<Tag>()`. -/
def loader_mac_size (ram_size : Nat) : Nat := ram_size / 4096 * tagBytes

/-- Loader `SwapHal::new` (swap.rs line 37):
`mac_size_to_page = (mac_size + (PAGE_SIZE - 1)) / PAGE_SIZE` — a page COUNT. -/
def loader_mac_size_to_page (ram_size : Nat) : Nat :=
  (loader_mac_size ram_size + (PAGE_SIZE - 1)) / PAGE_SIZE

/-- Loader `SwapHal::new` (swap.rs line 38):
`ram_size_actual = (swap.ram_size & !(PAGE_SIZE - 1)) - mac_size_to_page`.
This is the length of `dst_data_area`, and `dst_mac_area` (length `mac_size`)
starts at `ram_offset + ram_size_actual`. -/
def loader_ram_size_actual (ram_size : Nat) : Nat :=
  maskPage ram_size - loader_mac_size_to_page ram_size

/-- Swapper `SwapHal::new` MAC-table size (hw.rs line 28): same formula as the
loader. -/
def swapper_mac_size (swap_len : Nat) : Nat := swap_len / 4096 * tagBytes

/-- Swapper `SwapHal::new` (hw.rs line 29):
`mac_size_to_page = (mac_size + (PAGE_SIZE - 1)) & !(PAGE_SIZE - 1)` — the MAC
byte length rounded UP to a whole number of pages (bytes, not a page count). -/
def swapper_mac_size_to_page (swap_len : Nat) : Nat :=
  maskPage (swapper_mac_size swap_len + (PAGE_SIZE - 1))

/-- Swapper `SwapHal::new` (hw.rs line 30):
`ram_size_actual = (spec.swap_len & !(PAGE_SIZE - 1)) - mac_size_to_page`. -/
def swapper_ram_size_actual (swap_len : Nat) : Nat :=
  maskPage swap_len - swapper_mac_size_to_page swap_len

/-- A Mini-ELF section header (fields used by `copy_processes`): virtual start
address, length in bytes, and the flags bitmask. -/
structure MiniElfSection where
  virt : Nat
  len : Nat
  flags : Nat
deriving DecidableEq, Repr

/-- Modelled from the spec: the Mini-ELF flag bits (`minielf.rs` is not under
`src/`); the spec names `W` writable and `NOCOPY` bss-like.  Only the two
predicates below observe them, so the bit positions are immaterial. -/
def MINIELF_FLG_W : Nat := 1

/-- Modelled from the spec: the `NOCOPY` flag bit. -/
def MINIELF_FLG_NC : Nat := 2

/-- `section.no_copy()`: the section carries the NOCOPY flag. -/
def MiniElfSection.no_copy (s : MiniElfSection) : Bool :=
  decide (s.flags &&& MINIELF_FLG_NC ≠ 0)

/-- State of the IniE/IniF copy loop of `copy_processes`
(`phase1.rs` lines 342-472).  Physical pages handed out by `cfg.get_top()` are
numbered by allocation order; `pageBytes k` is the running contents of the
`k`-th allocated page, and `vmap` records, in order, which virtual page each
allocation was acquired for (`bzero`/copy events update `pageBytes`).
`srcOff` is the byte offset of `src_paddr` from the process image start. -/
structure EFState where
  allocCount : Nat
  pageBytes : Nat → Nat → Nat
  vmap : List (Nat × Nat)
  lastPageVaddr : Nat
  perfectFit : Bool
  srcOff : Nat

/-- Acquire a fresh page (`cfg.extra_pages += 1; top = cfg.get_top()`); its
initial contents come from the uninitialized-RAM oracle `ram`, replaced by
zeroes when the source performs the `bzero` (`zero = true`). -/
def allocPage (ram : Nat → Nat → Nat) (zero : Bool) (vpage : Nat) (st : EFState) :
    EFState :=
  { st with
    allocCount := st.allocCount + 1,
    pageBytes := fun k =>
      if k = st.allocCount then (if zero then fun _ => 0 else ram st.allocCount)
      else st.pageBytes k,
    vmap := st.vmap ++ [(vpage, st.allocCount)] }

/-- The `memcpy(top.add(dst_page_vaddr & (PAGE_SIZE - 1)), src_paddr, copyable)`
of the copy loop: write `n` source bytes into the current page at `dstOff` and
advance the source pointer. -/
def copyToPage (srcBytes : Nat → Nat) (st : EFState) (dstOff n : Nat) : EFState :=
  let cur := st.allocCount - 1
  { st with
    pageBytes := fun k =>
      if k = cur then
        fun j => if dstOff ≤ j ∧ j < dstOff + n then srcBytes (st.srcOff + (j - dstOff))
          else st.pageBytes cur j
      else st.pageBytes k,
    srcOff := st.srcOff + n }

/-- The `while bytes_to_copy > 0` loop of the IniE/IniF path
(`phase1.rs` lines 418-449), with an explicit structural-recursion bound
`fuel`.  Every iteration removes `copyable ≥ 1` bytes from `bytes_to_copy`, so
any `fuel ≥ btc` makes the bound inert (the callers pass `fuel = btc`); the
recursion is structural so that concrete runs reduce inside the kernel.
Returns the state together with the final `dst_page_vaddr`.  A NOCOPY section
skips the copy; when the page fills with more left to copy, a fresh page is
acquired and the pre-zeroing `bzero` is performed only when the remaining
length is below one page (line 442). -/
def copyChunks (srcBytes : Nat → Nat) (ram : Nat → Nat → Nat) (noCopy : Bool) :
    Nat → EFState → Nat → Nat → EFState × Nat
  | 0, st, dstVaddr, _ => (st, dstVaddr)
  | fuel + 1, st, dstVaddr, btc =>
    if btc = 0 then (st, dstVaddr)
    else
      let brivp := PAGE_SIZE - dstVaddr % 4096
      let copyable := min brivp btc
      let st1 := { st with perfectFit := decide (brivp = btc) }
      let st2 := if noCopy then st1 else copyToPage srcBytes st1 (dstVaddr % 4096) copyable
      let btc2 := btc - copyable
      let dst2 := dstVaddr + copyable
      let st3 :=
        if copyable = brivp ∧ 0 < btc2 then
          allocPage ram (decide (btc2 < PAGE_SIZE)) (maskPage dst2) st2
        else st2
      copyChunks srcBytes ram noCopy fuel st3 dst2 btc2

/-- One section of the IniE/IniF path (`phase1.rs` lines 363-471): panic on a
virtual address below `last_page_vaddr` (line 372), compute
`copy_to_ram = W-flag || tag == IniE` (line 370), acquire and zero a fresh page
when the target page changed or the previous section fit perfectly
(lines 394-414), run the copy loop, and record the final address; a section
left in FLASH only advances the source pointer (lines 454-458). -/
def iniefSection (srcBytes : Nat → Nat) (ram : Nat → Nat → Nat) (isIniE : Bool)
    (st : EFState) (s : MiniElfSection) : Except LoaderPanic EFState :=
  if s.virt < st.lastPageVaddr then .error .nonMonotonicSections
  else if (s.flags &&& MINIELF_FLG_W ≠ 0) ∨ isIniE = true then
    let st1 :=
      if maskPage st.lastPageVaddr ≠ maskPage s.virt ∨ st.perfectFit = true then
        allocPage ram true (maskPage s.virt) st
      else st
    let r := copyChunks srcBytes ram s.no_copy s.len st1 s.virt s.len
    .ok { r.1 with lastPageVaddr := r.2 }
  else
    .ok { st with srcOff := st.srcOff + s.len }

/-- Fold `iniefSection` over the sections of one IniE/IniF process. -/
def runIniEFFrom (srcBytes : Nat → Nat) (ram : Nat → Nat → Nat) (isIniE : Bool) :
    EFState → List MiniElfSection → Except LoaderPanic EFState
  | st, [] => .ok st
  | st, s :: rest =>
    match iniefSection srcBytes ram isIniE st s with
    | .ok st2 => runIniEFFrom srcBytes ram isIniE st2 rest
    | .error e => .error e

/-- Initial per-process state of the IniE/IniF loop: no pages allocated,
`last_page_vaddr = 0`, `last_section_perfect_fit = false`. -/
def initEFState : EFState :=
  { allocCount := 0, pageBytes := fun _ _ => 0, vmap := [], lastPageVaddr := 0,
    perfectFit := false, srcOff := 0 }

/-- Process one IniE (`isIniE = true`) or IniF (`isIniE = false`) tag. -/
def runIniEF (isIniE : Bool) (srcBytes : Nat → Nat) (ram : Nat → Nat → Nat)
    (sections : List MiniElfSection) : Except LoaderPanic EFState :=
  runIniEFFrom srcBytes ram isIniE initEFState sections

/-- The byte a virtual address ends up at after the copy loop: look up the page
allocated for its virtual page (the most recent such allocation) and read the
in-page offset. -/
def EFState.destByte (st : EFState) (vaddr : Nat) : Option Nat :=
  (st.vmap.reverse.find? (fun p => p.1 == maskPage vaddr)).map
    (fun p => st.pageBytes p.2 (vaddr % 4096))

/-- Decide whether an `Except` computation finished without a panic. -/
def exOk {ε α : Type} : Except ε α → Bool
  | .ok _ => true
  | .error _ => false

/-- State of the IniS swap-transcoding path of `copy_processes`
(`phase1.rs` lines 474-639).  `working_buf` is the one-page plaintext staging
buffer; `encrypts` and `maps` record, in order, the
`(dest_offset, vaddr, pid)` arguments of every `swap.encrypt_swap_to` and
`cfg.map_swap` call (`map_swap` lives in the loader's `BootConfig`, outside
`src/`, so it is embedded as an event record).  `src_swap_img_addr` is the
running source-image offset; the lazy `decrypt_src_page_at` refresh of the
source page buffer (lines 562-564) is embedded by reading the decrypted source
image directly through the `srcByte` oracle. -/
structure IniSState where
  working_page_swap_offset : Option Nat
  working_buf : Nat → Nat
  working_buf_dirty : Bool
  swap_free_page : Nat
  encrypts : List (Nat × Nat × Nat)
  maps : List (Nat × Nat × Nat)
  src_swap_img_addr : Nat
  last_copy_vaddr : Nat

/-- Flush the working page and rotate to a fresh swap page (`phase1.rs`
lines 528-538 and 590-604): `encrypt_swap_to(&mut working_buf, off * 0x1000,
vaddr, pid)`, `map_swap(off * 0x1000, vaddr, pid)`, clear the buffer, take the
next free swap page and advance `swap_free_page`. -/
def iniSFlushRotate (pid vaddr off : Nat) (st : IniSState) : IniSState :=
  { st with
    encrypts := st.encrypts ++ [(off * 4096, vaddr, pid)],
    maps := st.maps ++ [(off * 4096, vaddr, pid)],
    working_buf := fun _ => 0,
    working_page_swap_offset := some st.swap_free_page,
    working_buf_dirty := false,
    swap_free_page := st.swap_free_page + 1 }

/-- The `while bytes_to_copy > 0` loop of the IniS path (`phase1.rs`
lines 554-606): take the largest chunk available in both the decrypted source
page and the destination page, copy it into `working_buf` unless the section is
NOCOPY (the dirty bit is set either way, line 577/581), and when `dst_page_vaddr`
wraps to a page boundary flush the working page — the source passes
`dst_page_vaddr & !(PAGE_SIZE - 1)` for the vaddr, i.e. the boundary just
reached (lines 590-600).  Returns the state and the final `dst_page_vaddr`.
As in `copyChunks`, `fuel` is a structural-recursion bound that is inert for
`fuel ≥ btc` because each iteration removes `copyable ≥ 1` bytes; the caller
passes `fuel = btc`. -/
def iniSChunks (srcByte : Nat → Nat) (noCopy : Bool) (pid : Nat) :
    Nat → IniSState → Nat → Nat → Except LoaderPanic (IniSState × Nat)
  | 0, st, dstVaddr, _ => .ok (st, dstVaddr)
  | fuel + 1, st, dstVaddr, btc =>
    if btc = 0 then .ok (st, dstVaddr)
    else
      let decrypt_avail := remaining_in_page st.src_swap_img_addr
      let dst_page_avail := remaining_in_page dstVaddr
      let dst_page_offset := dstVaddr % 4096
      let copyable :=
        if decrypt_avail ≥ dst_page_avail then min dst_page_avail btc
        else min decrypt_avail btc
      let st1 :=
        if noCopy then { st with working_buf_dirty := true }
        else
          { st with
            working_buf := fun j =>
              if dst_page_offset ≤ j ∧ j < dst_page_offset + copyable then
                srcByte (st.src_swap_img_addr + (j - dst_page_offset))
              else st.working_buf j,
            working_buf_dirty := true }
      let st2 := { st1 with src_swap_img_addr := st1.src_swap_img_addr + copyable }
      let btc2 := btc - copyable
      let dst2 := dstVaddr + copyable
      if dst2 % 4096 = 0 then
        match st2.working_page_swap_offset with
        | some off =>
          iniSChunks srcByte noCopy pid fuel (iniSFlushRotate pid (maskPage dst2) off st2) dst2 btc2
        | none => .error .unwrapNone
      else
        iniSChunks srcByte noCopy pid fuel st2 dst2 btc2

/-- One IniS section (`phase1.rs` lines 520-620): on the very first section
acquire the first swap page; afterwards, when the new section's destination
lies outside the current working page, flush the working page — the source
passes `dst_page_vaddr & !(PAGE_SIZE - 1)`, the NEW section's page, as the
vaddr (lines 528-534) — then run the chunk loop and record the final address
in `last_copy_vaddr`. -/
def iniSSection (srcByte : Nat → Nat) (pid : Nat) (st : IniSState)
    (s : MiniElfSection) : Except LoaderPanic IniSState :=
  let st1 :=
    match st.working_page_swap_offset with
    | some off =>
      if maskPage st.last_copy_vaddr ≠ maskPage s.virt then
        iniSFlushRotate pid (maskPage s.virt) off st
      else st
    | none =>
      { st with working_page_swap_offset := some st.swap_free_page,
                swap_free_page := st.swap_free_page + 1 }
  match iniSChunks srcByte s.no_copy pid s.len st1 s.virt s.len with
  | .ok r => .ok { r.1 with last_copy_vaddr := r.2 }
  | .error e => .error e

/-- Fold `iniSSection` over the sections of one IniS process. -/
def runIniSFrom (srcByte : Nat → Nat) (pid : Nat) :
    IniSState → List MiniElfSection → Except LoaderPanic IniSState
  | st, [] => .ok st
  | st, s :: rest =>
    match iniSSection srcByte pid st s with
    | .ok st2 => runIniSFrom srcByte pid st2 rest
    | .error e => .error e

/-- The end-of-process step (`phase1.rs` lines 621-637): if the working buffer
is dirty, flush it once more at `last_copy_vaddr & !(PAGE_SIZE - 1)`; otherwise
`cfg.swap_free_page -= 1` — an UNGUARDED decrement (a Rust `usize` underflow
panic when the counter is 0; embedded as truncated subtraction, which likewise
fails to preserve the counter for a process that never allocated a page). -/
def iniSFinal (pid : Nat) (st : IniSState) : Except LoaderPanic IniSState :=
  if st.working_buf_dirty then
    match st.working_page_swap_offset with
    | some off => .ok { st with
        encrypts := st.encrypts ++ [(off * 4096, maskPage st.last_copy_vaddr, pid)],
        maps := st.maps ++ [(off * 4096, maskPage st.last_copy_vaddr, pid)],
        working_page_swap_offset := none }
    | none => .error .unwrapNone
  else
    .ok { st with swap_free_page := st.swap_free_page - 1 }

/-- The initial IniS per-process state (`phase1.rs` lines 506-518). -/
def initIniSState (load_offset init_free_page : Nat) : IniSState :=
  { working_page_swap_offset := none, working_buf := fun _ => 0,
    working_buf_dirty := false, swap_free_page := init_free_page,
    encrypts := [], maps := [], src_swap_img_addr := load_offset,
    last_copy_vaddr := 0 }

/-- Process one IniS tag end to end: the section loop followed by the final
flush-or-recycle step. -/
def runIniS (srcByte : Nat → Nat) (pid load_offset init_free_page : Nat)
    (sections : List MiniElfSection) : Except LoaderPanic IniSState :=
  match runIniSFrom srcByte pid (initIniSState load_offset init_free_page) sections with
  | .ok st => iniSFinal pid st
  | .error e => .error e

/-- One shift-and-conditional-xor round of the bit-reflected CRC-16/X25
(polynomial 0x1021 reflected to 0x8408), as implemented by the external `crc`
crate's `crc16::X25` digest used in `copy_args`. -/
def crc16Round (crc : Nat) : Nat :=
  if crc % 2 = 1 then (crc / 2) ^^^ 0x8408 else crc / 2

/-- Iterate `crc16Round`. -/
def crc16Rounds : Nat → Nat → Nat
  | 0, crc => crc
  | n + 1, crc => crc16Rounds n (crc16Round crc)

/-- CRC-16/X25 of a byte string: init 0xFFFF, reflected input/output, final
xor 0xFFFF. -/
def crc16X25 (bytes : List Nat) : Nat :=
  0xFFFF ^^^ bytes.foldl (fun crc b => crc16Rounds 8 (crc ^^^ b % 256)) 0xFFFF

/-- Serialize a list of 32-bit words to bytes, little-endian (the layout of the
argument stream in memory on the little-endian RISC-V target, used when
`copy_args` reinterprets the word slice as a `u8` slice). -/
def bytesOfWordsLE : List Nat → List Nat
  | [] => []
  | w :: ws =>
    let v := w % 2 ^ 32
    v % 256 :: v / 2 ^ 8 % 256 :: v / 2 ^ 16 % 256 :: v / 2 ^ 24 % 256 ::
      bytesOfWordsLE ws

/-- The length-patch and CRC-patch tail of the swap-enabled `copy_args`
(`phase1.rs` lines 255-281), applied to the merged argument stream (a list of
32-bit words):

  * `merged_arg_slice[2] = arg_index` — patch the XArg total-length word
    (word 2, the first payload word),
  * recompute the CRC-16/X25 digest over the XArg payload
    (`xarg.data`, i.e. `xarg_data_len` words starting at word 2, viewed as
    bytes),
  * `merged_arg_slice_u8[4..6].copy_from_slice(&digest.sum16().to_le_bytes())`
    — write the new CRC, little-endian, at BYTE OFFSETS 4 and 5 of the stream
    (the 16-bit field between the 4-byte tag and the 2-byte size of the XArg
    record header).

Returns the patched stream as bytes. -/
def copy_args_crc_patch (merged : List Nat) (arg_index xarg_data_len : Nat) :
    List Nat :=
  let patched := merged.set 2 arg_index
  let xarg_data := bytesOfWordsLE ((patched.drop 2).take xarg_data_len)
  let crc := crc16X25 xarg_data
  let bytes := bytesOfWordsLE patched
  (bytes.set 4 (crc % 256)).set 5 (crc / 2 ^ 8 % 256)

/-- Modelled from the spec: the Argument Stream Reader (`KernelArguments`, not
under `src/`) verifies a CRC-16/X25 computed over the XArg payload against the
16-bit little-endian value stored in the XArg record header — the same field
`copy_args` patches, at byte offsets 4..6 of the stream. -/
def validateXArgStream (bytes : List Nat) (xarg_data_len : Nat) : Bool :=
  let payload := (bytes.drop 8).take (4 * xarg_data_len)
  let stored := bytes.getD 4 0 + 256 * bytes.getD 5 0
  stored == crc16X25 payload

/-- The tag the loader's `encrypt_swap_to` stores for plaintext `buf` written to
swap offset `off` for virtual address `va` and process `pid`: it is keyed by
`src_cipher` (the FLASH source-image key), following source line 140. -/
def storedTag (h : LoaderSwapHal) (buf : List Nat) (off va pid : Nat) : IdealTag :=
  IdealTag.mk h.srcCipherKey (swapNonce 0 pid off va)
    [] (xmask h.srcCipherKey (swapNonce 0 pid off va) buf)

/-- An all-zero page, used as a concrete plaintext page in witnesses. -/
def pageZero : List Nat := List.replicate 4096 0

/-- A concrete loader hal: FLASH source key `[1]`, per-boot TRNG destination
key `[2]` (distinct from the source key), all swap areas unwritten. -/
def loaderHalExample : LoaderSwapHal :=
  { srcDataPages := fun _ => none, srcMacPages := fun _ => none,
    partial_nonce := [0, 0, 0, 0, 0, 0, 0, 0], aad := [],
    srcCipherKey := [1], dstData := fun _ => none, dstMac := fun _ => none,
    dstCipherKey := [2], buf_addr := 0, buf := pageZero }

/-- A concrete loader hal whose swap RAM slot 0 holds a ciphertext page and a
MAC-table entry that does not authenticate it (a tampered tag). -/
def loaderHalBadTag : LoaderSwapHal :=
  { loaderHalExample with
    dstData := fun i => if i = 0 then some (List.replicate 4096 7) else none,
    dstMac := fun i => if i = 0 then some (IdealTag.mk [9] [] [] []) else none }

/-- A concrete runtime-swapper hal with the same tampered slot 0. -/
def swapperHalExample : SwapperHal :=
  { dstData := fun i => if i = 0 then some (List.replicate 4096 7) else none,
    dstMac := fun i => if i = 0 then some (IdealTag.mk [9] [] [] []) else none,
    cipherKey := [4] }

/-- A concrete merged argument stream (words): an XArg record with tag word,
crc/size header word (size 5), and a 5-word payload
`[total_len, version, ram_start, ram_size, ram_name]`. -/
def mergedStreamExample : List Nat :=
  [0x67724158, 0x00050000, 11, 1, 0x40000000, 0x01000000, 0x006d6172]

/-!
Helper lemmas about the embedded definitions.
-/

theorem xmask_xmask (key nonce data : List Nat) :
    xmask key nonce (xmask key nonce data) = data := by
  simp only [xmask, List.map_map]
  have h : ∀ b : Nat, b ^^^ ksByte key nonce ^^^ ksByte key nonce = b := fun b =>
    Nat.xor_cancel_right _ b
  calc (data.map fun b => b ^^^ ksByte key nonce ^^^ ksByte key nonce)
      = data.map id := by
        exact List.map_congr_left (fun b _ => h b)
    _ = data := List.map_id data

theorem swapNonce_ne_of_vpage_ne {va vb : Nat} (sc pid off : Nat)
    (hva : va < 2 ^ 32) (hvb : vb < 2 ^ 32) (h : maskPage va ≠ maskPage vb) :
    swapNonce sc pid off va ≠ swapNonce sc pid off vb := by
  intro heq
  simp only [swapNonce, maskPage, List.cons.injEq, and_true] at heq
  simp only [maskPage] at h
  omega

theorem swapNonce_ne_of_pid_ne {pa pb : Nat} (sc off va : Nat)
    (hpa : pa < 256) (hpb : pb < 256) (h : pa ≠ pb) :
    swapNonce sc pa off va ≠ swapNonce sc pb off va := by
  intro heq
  simp only [swapNonce, List.cons.injEq, and_true] at heq
  omega

theorem encrypt_swap_to_ok (h : LoaderSwapHal) (buf : List Nat) (off va pid : Nat)
    (hlen : buf.length = PAGE_SIZE) (hoff : off % 4096 = 0) :
    afterEncrypt h buf off va pid = { h with
      dstData := fun i => if i = off / 4096 then
          some (xmask h.srcCipherKey (swapNonce 0 pid off va) buf) else h.dstData i,
      dstMac := fun i => if i = off / 4096 then some (storedTag h buf off va pid)
        else h.dstMac i } := by
  simp [afterEncrypt, LoaderSwapHal.encrypt_swap_to, hlen, hoff, idealEncryptDetached,
    storedTag]

theorem decrypt_swap_from_ok (h : LoaderSwapHal) (off va pid : Nat) (ct : List Nat)
    (hoff : off % 4096 = 0)
    (hmac : h.dstMac (off / 4096) =
      some (IdealTag.mk h.srcCipherKey (swapNonce 0 pid off va) [] ct))
    (hdata : h.dstData (off / 4096) = some ct) :
    h.decrypt_swap_from off va pid =
      .ok (xmask h.srcCipherKey (swapNonce 0 pid off va) ct) := by
  simp [LoaderSwapHal.decrypt_swap_from, hoff, hmac, hdata, idealDecryptDetached]

theorem decrypt_swap_from_mismatch (h : LoaderSwapHal) (off va pid : Nat)
    (ct : List Nat) (tag : IdealTag)
    (hoff : off % 4096 = 0)
    (hmac : h.dstMac (off / 4096) = some tag)
    (hdata : h.dstData (off / 4096) = some ct)
    (hne : tag ≠ IdealTag.mk h.srcCipherKey (swapNonce 0 pid off va) [] ct) :
    h.decrypt_swap_from off va pid = .panicked .decryptError := by
  simp [LoaderSwapHal.decrypt_swap_from, hoff, hmac, hdata, idealDecryptDetached, hne]

theorem decrypt_swap_from_unwritten (h : LoaderSwapHal) (off va pid : Nat)
    (hoff : off % 4096 = 0)
    (hmac : h.dstMac (off / 4096) = none) :
    h.decrypt_swap_from off va pid = .panicked .decryptError := by
  simp [LoaderSwapHal.decrypt_swap_from, hoff, hmac]

theorem decrypt_after_encrypt_same_nonce (h : LoaderSwapHal) (P : List Nat)
    (off va va2 pid : Nat)
    (hP : P.length = PAGE_SIZE) (hoff : off % 4096 = 0)
    (hnonce : swapNonce 0 pid off va2 = swapNonce 0 pid off va) :
    (afterEncrypt h P off va pid).decrypt_swap_from off va2 pid = .ok P := by
  rw [encrypt_swap_to_ok h P off va pid hP hoff]
  refine Eq.trans (decrypt_swap_from_ok _ off va2 pid
    (xmask h.srcCipherKey (swapNonce 0 pid off va) P) hoff ?_ ?_) ?_
  · simp [storedTag, hnonce]
  · simp
  · rw [hnonce, xmask_xmask]

theorem swapper_decrypt_typed (h : SwapperHal) (buf ct : List Nat) (tag : IdealTag)
    (sc off va pid : Nat)
    (hoff : off % 4096 = 0) (hlen : buf.length = PAGE_SIZE)
    (hmac : h.dstMac (off / 4096) = some tag)
    (hdata : h.dstData (off / 4096) = some ct)
    (hne : tag ≠ IdealTag.mk h.cipherKey (swapNonce sc pid off va) [] ct) :
    h.decrypt_swap_from buf sc off va pid = .typedError := by
  simp [SwapperHal.decrypt_swap_from, hoff, hlen, hmac, hdata, idealDecryptDetached, hne]

theorem bytesOfWordsLE_length (ws : List Nat) : (bytesOfWordsLE ws).length = 4 * ws.length := by
  induction ws with
  | nil => simp [bytesOfWordsLE]
  | cons w ws ih => simp [bytesOfWordsLE, ih]; ring

theorem bytesOfWordsLE_drop_two (ws : List Nat) :
    (bytesOfWordsLE ws).drop 8 = bytesOfWordsLE (ws.drop 2) := by
  match ws with
  | [] => simp [bytesOfWordsLE]
  | [w] => simp [bytesOfWordsLE]
  | w1 :: w2 :: rest => simp [bytesOfWordsLE]

theorem bytesOfWordsLE_take (ws : List Nat) (n : Nat) :
    (bytesOfWordsLE ws).take (4 * n) = bytesOfWordsLE (ws.take n) := by
  induction ws generalizing n with
  | nil => simp [bytesOfWordsLE]
  | cons w rest ih =>
    cases n with
    | zero => simp [bytesOfWordsLE]
    | succ m =>
      have h4 : 4 * (m + 1) = (((m * 4 + 1) + 1) + 1) + 1 := by ring
      simp only [bytesOfWordsLE, List.take_succ_cons, h4, List.take_cons]
      have h4b : m * 4 = 4 * m := by ring
      simp [h4b, ih]

theorem crc16Round_lt {c : Nat} (h : c < 65536) : crc16Round c < 65536 := by
  unfold crc16Round
  split
  · have h1 : c / 2 ^^^ 0x8408 < 2 ^ 16 :=
      @Nat.xor_lt_two_pow (c / 2) 0x8408 16 (by omega) (by norm_num)
    omega
  · omega

theorem crc16Rounds_lt (n : Nat) {c : Nat} (h : c < 65536) : crc16Rounds n c < 65536 := by
  induction n generalizing c with
  | zero => simpa [crc16Rounds] using h
  | succ m ih => exact ih (crc16Round_lt h)

theorem crc16X25_foldl_lt (bs : List Nat) {acc : Nat} (h : acc < 65536) :
    bs.foldl (fun crc b => crc16Rounds 8 (crc ^^^ b % 256)) acc < 65536 := by
  induction bs generalizing acc with
  | nil => simpa using h
  | cons b rest ih =>
    simp only [List.foldl_cons]
    refine ih (crc16Rounds_lt 8 ?_)
    have h1 : acc ^^^ b % 256 < 2 ^ 16 :=
      @Nat.xor_lt_two_pow acc (b % 256) 16 (by omega) (by omega)
    omega

theorem crc16X25_lt (bs : List Nat) : crc16X25 bs < 65536 := by
  unfold crc16X25
  have hf := crc16X25_foldl_lt bs (show (0xFFFF : Nat) < 65536 by norm_num)
  have h1 : (0xFFFF : Nat) ^^^ bs.foldl (fun crc b => crc16Rounds 8 (crc ^^^ b % 256)) 0xFFFF
      < 2 ^ 16 :=
    @Nat.xor_lt_two_pow 0xFFFF _ 16 (by norm_num) (by omega)
  omega

theorem copyChunks_snd (srcBytes : Nat → Nat) (ram : Nat → Nat → Nat) (noCopy : Bool) :
    ∀ fuel st dstVaddr btc, btc ≤ fuel →
      (copyChunks srcBytes ram noCopy fuel st dstVaddr btc).2 = dstVaddr + btc := by
  intro fuel
  induction fuel with
  | zero =>
    intro st dst btc h
    have : btc = 0 := by omega
    simp [copyChunks, this]
  | succ n ih =>
    intro st dst btc h
    by_cases hb : btc = 0
    · simp [copyChunks, hb]
    · simp only [copyChunks, hb, if_false]
      rw [ih]
      · simp only [PAGE_SIZE]
        omega
      · simp only [PAGE_SIZE]
        omega

theorem iniefSection_ok_bounds (srcBytes : Nat → Nat) (ram : Nat → Nat → Nat)
    (st st2 : EFState) (s : MiniElfSection)
    (hok : iniefSection srcBytes ram true st s = .ok st2) :
    st.lastPageVaddr ≤ s.virt ∧ st2.lastPageVaddr = s.virt + s.len := by
  unfold iniefSection at hok
  split at hok
  · cases hok
  · rename_i hnlt
    split at hok
    · cases hok
      refine ⟨by omega, ?_⟩
      simp [copyChunks_snd srcBytes ram _ s.len _ s.virt s.len le_rfl]
    · rename_i hcond
      exact absurd (Or.inr rfl) hcond

theorem pageZero_length : pageZero.length = PAGE_SIZE := by
  unfold pageZero PAGE_SIZE
  exact List.length_replicate 4096 0

theorem runIniEFFrom_cons (srcBytes : Nat → Nat) (ram : Nat → Nat → Nat)
    (isIniE : Bool) (st : EFState) (s : MiniElfSection) (rest : List MiniElfSection) :
    runIniEFFrom srcBytes ram isIniE st (s :: rest) =
      match iniefSection srcBytes ram isIniE st s with
      | .ok st2 => runIniEFFrom srcBytes ram isIniE st2 rest
      | .error e => .error e := rfl

/-!
Claim theorems.
-/

/-- Claim C1: the spec says the loader's `encrypt_swap_to` / `decrypt_swap_from`
operate under the destination-side cipher keyed by the per-boot TRNG key
(`dst_cipher`), the FLASH source key being reserved for the source image.  The
code disagrees: `encrypt_swap_to` (swap.rs line 140) and `decrypt_swap_from`
(line 166) both use `self.src_cipher`, and the `dst_cipher` built from the TRNG
key in `SwapHal::new` is never used.  Concretely, on a hal whose FLASH key `[1]`
differs from the TRNG key `[2]`, the MAC entry stored by `encrypt_swap_to` is
keyed by the FLASH source key, not the TRNG destination key. -/
theorem c1_encrypt_swap_to_uses_flash_source_key :
    (afterEncrypt loaderHalExample pageZero 0 0x10000 2).dstMac 0 =
      some (storedTag loaderHalExample pageZero 0 0x10000 2) ∧
    (storedTag loaderHalExample pageZero 0 0x10000 2).key = loaderHalExample.srcCipherKey ∧
    loaderHalExample.srcCipherKey ≠ loaderHalExample.dstCipherKey := by
  refine ⟨?_, rfl, by decide⟩
  rw [encrypt_swap_to_ok loaderHalExample pageZero 0 0x10000 2
    pageZero_length (by decide)]
  simp

/-- Claim C2, counterexample: the claim says the LOADER's `decrypt_swap_from`
returns a typed decryption error on tag mismatch rather than panicking.  On a
concrete hal whose slot-0 MAC entry does not authenticate the stored page, the
loader's `decrypt_swap_from` panics (swap.rs line 173) — the embedded outcome is
`panicked`, not `typedError`. -/
theorem c2_loader_decrypt_panics_on_tag_mismatch :
    loaderHalBadTag.decrypt_swap_from 0 0x1000 2 = .panicked .decryptError := by
  refine decrypt_swap_from_mismatch loaderHalBadTag 0 0x1000 2
    (List.replicate 4096 7) (IdealTag.mk [9] [] [] []) (by decide) rfl rfl ?_
  decide

/-- Claim C2 (amended): when the AEAD tag check fails, the RUNTIME SWAPPER's
`decrypt_swap_from` (hw.rs lines 82-110, the function the pager uses on swap
RAM) returns the typed `aes_gcm_siv::Error` to its caller instead of panicking;
the loader's own `decrypt_swap_from` panics on the same condition. -/
theorem c2_tag_mismatch_error_handling
    (hs : SwapperHal) (hl : LoaderSwapHal) (buf ctS ctL : List Nat)
    (tagS tagL : IdealTag) (sc offS vaS pidS offL vaL pidL : Nat)
    (hoffS : offS % 4096 = 0) (hlenS : buf.length = PAGE_SIZE)
    (hmacS : hs.dstMac (offS / 4096) = some tagS)
    (hdataS : hs.dstData (offS / 4096) = some ctS)
    (hneS : tagS ≠ IdealTag.mk hs.cipherKey (swapNonce sc pidS offS vaS) [] ctS)
    (hoffL : offL % 4096 = 0)
    (hmacL : hl.dstMac (offL / 4096) = some tagL)
    (hdataL : hl.dstData (offL / 4096) = some ctL)
    (hneL : tagL ≠ IdealTag.mk hl.srcCipherKey (swapNonce 0 pidL offL vaL) [] ctL) :
    hs.decrypt_swap_from buf sc offS vaS pidS = .typedError ∧
    hl.decrypt_swap_from offL vaL pidL = .panicked .decryptError :=
  ⟨swapper_decrypt_typed hs buf ctS tagS sc offS vaS pidS hoffS hlenS hmacS hdataS hneS,
   decrypt_swap_from_mismatch hl offL vaL pidL ctL tagL hoffL hmacL hdataL hneL⟩

/-- Witness for claim C2's theorem at a concrete tampered slot. -/
theorem c2_tag_mismatch_error_handling_witness :
    swapperHalExample.decrypt_swap_from pageZero 0 0 0x5000 3 = .typedError ∧
    loaderHalBadTag.decrypt_swap_from 0 0x2000 5 = .panicked .decryptError :=
  c2_tag_mismatch_error_handling swapperHalExample loaderHalBadTag pageZero
    (List.replicate 4096 7) (List.replicate 4096 7)
    (IdealTag.mk [9] [] [] []) (IdealTag.mk [9] [] [] [])
    0 0 0x5000 3 0 0x2000 5
    (by decide) pageZero_length rfl rfl (by decide)
    (by decide) rfl rfl (by decide)

/-- Claim C3: the spec says the loader's `SwapHal::new` and the runtime
swapper's `SwapHal::new` split swap RAM identically (same `ram_size_actual`).
The code disagrees: the loader (swap.rs line 37) computes `mac_size_to_page` as
a PAGE COUNT (`(mac_size + 4095) / PAGE_SIZE`) and subtracts that count from
the page-aligned RAM size, while the swapper (hw.rs line 29) rounds the MAC
byte length up to whole pages (`(mac_size + 4095) & !(PAGE_SIZE - 1)`) and
subtracts the byte length.  For a 1 MiB swap region the loader puts
`dst_mac_area` at offset 0xFFFFF and the swapper reads it at 0xFF000, so the
MAC table the loader writes is not where the swapper looks.  The spec's own
design notes flag the loader expression as a unit slip. -/
theorem c3_ram_size_actual_split_differs :
    loader_ram_size_actual 0x100000 = 0xFFFFF ∧
    swapper_ram_size_actual 0x100000 = 0xFF000 ∧
    loader_ram_size_actual 0x100000 ≠ swapper_ram_size_actual 0x100000 := by
  refine ⟨by decide, by decide, by decide⟩

/-- Claim C4, counterexample: the claim asserts
`len(dst_mac_area) / 16 == len(dst_data_area) / PAGE` for every configuration
the loader's `SwapHal::new` accepts.  At `ram_size = 0x100000` the loader's
areas give 256 MAC slots but only 255 whole ciphertext pages, so the equality
fails (the MAC table is deliberately over-sized: it is computed from the full
RAM size before the MAC area is carved out, per the comment in
`SwapHal::new`). -/
theorem c4_mac_count_not_equal_at_1MiB :
    loader_mac_size 0x100000 / tagBytes = 256 ∧
    loader_ram_size_actual 0x100000 / PAGE_SIZE = 255 ∧
    loader_mac_size 0x100000 / tagBytes ≠ loader_ram_size_actual 0x100000 / PAGE_SIZE := by
  refine ⟨by decide, by decide, by decide⟩

/-- Claim C4 (amended): the loader's MAC table COVERS the ciphertext area —
`len(dst_mac_area) / 16 ≥ len(dst_data_area) / PAGE` for every swap RAM size —
so every whole ciphertext page of `dst_data_area` has a MAC slot; the two
quotients are not equal in general because `mac_size` is computed from the
full RAM size (a deliberate slight over-estimate). -/
theorem c4_mac_table_covers_ciphertext_ge (ram_size : Nat) :
    loader_ram_size_actual ram_size / PAGE_SIZE ≤ loader_mac_size ram_size / tagBytes := by
  simp only [loader_ram_size_actual, loader_mac_size, loader_mac_size_to_page,
    maskPage, PAGE_SIZE, tagBytes]
  omega

/-- Claim C5 (amended): for a page-sized buffer `P`, a page-aligned offset
`off` and a pid, after `encrypt_swap_to(P, off, va, pid)` a call to
`decrypt_swap_from(off, va, pid)` reproduces `P` exactly; and changing `off`
(to a different page-aligned offset), the PAGE of `va`, `pid` (a different
u8), the stored ciphertext, or the stored MAC entry makes the decryption fail
(the loader panics on the failed tag check).  Changing `va` to a different
address in the SAME virtual page does not change the nonce, so decryption
still succeeds — see the counterexample — which is the one respect in which
the original claim fails. -/
theorem c5_swap_roundtrip_and_tamper_detection
    (h : LoaderSwapHal) (P ct2 : List Nat) (tag2 : IdealTag)
    (off off2 va va2 pid pid2 : Nat)
    (hP : P.length = PAGE_SIZE)
    (hoff : off % 4096 = 0) (hoff2 : off2 % 4096 = 0) (hoffne : off ≠ off2)
    (hva : va < 2 ^ 32) (hva2 : va2 < 2 ^ 32) (hvpage : maskPage va ≠ maskPage va2)
    (hpid : pid < 256) (hpid2 : pid2 < 256) (hpidne : pid ≠ pid2)
    (hmac0 : h.dstMac = fun _ => none)
    (hct2 : ct2 ≠ xmask h.srcCipherKey (swapNonce 0 pid off va) P)
    (htag2 : tag2 ≠ storedTag h P off va pid) :
    ((afterEncrypt h P off va pid).decrypt_swap_from off va pid = .ok P) ∧
    ((afterEncrypt h P off va pid).decrypt_swap_from off2 va pid = .panicked .decryptError) ∧
    ((afterEncrypt h P off va pid).decrypt_swap_from off va2 pid = .panicked .decryptError) ∧
    ((afterEncrypt h P off va pid).decrypt_swap_from off va pid2 = .panicked .decryptError) ∧
    ((setSlotData (afterEncrypt h P off va pid) (off / 4096) ct2).decrypt_swap_from off va pid
      = .panicked .decryptError) ∧
    ((setSlotMac (afterEncrypt h P off va pid) (off / 4096) tag2).decrypt_swap_from off va pid
      = .panicked .decryptError) := by
  have henc := encrypt_swap_to_ok h P off va pid hP hoff
  set ct := xmask h.srcCipherKey (swapNonce 0 pid off va) P with hct
  refine ⟨?_, ?_, ?_, ?_, ?_, ?_⟩
  · rw [henc]
    have := decrypt_swap_from_ok { h with
      dstData := fun i => if i = off / 4096 then some ct else h.dstData i,
      dstMac := fun i => if i = off / 4096 then some (storedTag h P off va pid) else h.dstMac i }
      off va pid ct hoff (by simp [storedTag]) (by simp)
    rw [this, hct, xmask_xmask]
  · rw [henc]
    have hslot : off2 / 4096 ≠ off / 4096 := by omega
    exact decrypt_swap_from_unwritten _ off2 va pid hoff2 (by simp [hslot, hmac0])
  · rw [henc]
    refine decrypt_swap_from_mismatch _ off va2 pid ct (storedTag h P off va pid) hoff
      (by simp) (by simp) ?_
    simp only [storedTag, ne_eq, IdealTag.mk.injEq, not_and]
    intro _ hn
    exact absurd hn (swapNonce_ne_of_vpage_ne 0 pid off hva hva2 hvpage)
  · rw [henc]
    refine decrypt_swap_from_mismatch _ off va pid2 ct (storedTag h P off va pid) hoff
      (by simp) (by simp) ?_
    simp only [storedTag, ne_eq, IdealTag.mk.injEq, not_and]
    intro _ hn
    exact absurd hn (swapNonce_ne_of_pid_ne 0 off va hpid hpid2 hpidne)
  · rw [henc]
    refine decrypt_swap_from_mismatch _ off va pid ct2 (storedTag h P off va pid) hoff
      (by simp [setSlotData]) (by simp [setSlotData]) ?_
    simp only [storedTag, ne_eq, IdealTag.mk.injEq, not_and]
    intro _ _ _ hn
    exact absurd hn.symm hct2
  · rw [henc]
    exact decrypt_swap_from_mismatch _ off va pid ct tag2 hoff
      (by simp [setSlotMac]) (by simp [setSlotMac]) (by simpa [storedTag] using htag2)

/-- Witness for claim C5's theorem at a concrete boot: FLASH key `[1]`, page
of zeroes, offsets 0 and 0x1000, virtual pages 0x10000 and 0x20000, pids 2
and 3, tampered ciphertext `[]` and tampered tag `⟨[], [], [], []⟩`. -/
theorem c5_swap_roundtrip_and_tamper_detection_witness :
    ((afterEncrypt loaderHalExample pageZero 0 0x10000 2).decrypt_swap_from 0 0x10000 2
      = .ok pageZero) ∧
    ((afterEncrypt loaderHalExample pageZero 0 0x10000 2).decrypt_swap_from 0x1000 0x10000 2
      = .panicked .decryptError) ∧
    ((afterEncrypt loaderHalExample pageZero 0 0x10000 2).decrypt_swap_from 0 0x20000 2
      = .panicked .decryptError) ∧
    ((afterEncrypt loaderHalExample pageZero 0 0x10000 2).decrypt_swap_from 0 0x10000 3
      = .panicked .decryptError) ∧
    ((setSlotData (afterEncrypt loaderHalExample pageZero 0 0x10000 2) (0 / 4096)
        []).decrypt_swap_from 0 0x10000 2 = .panicked .decryptError) ∧
    ((setSlotMac (afterEncrypt loaderHalExample pageZero 0 0x10000 2) (0 / 4096)
        (IdealTag.mk [] [] [] [])).decrypt_swap_from 0 0x10000 2
      = .panicked .decryptError) :=
  c5_swap_roundtrip_and_tamper_detection loaderHalExample pageZero []
    (IdealTag.mk [] [] [] []) 0 0x1000 0x10000 0x20000 2 3
    pageZero_length (by decide) (by decide) (by decide)
    (by decide) (by decide) (by decide)
    (by decide) (by decide) (by decide)
    rfl (by decide) (by decide)

/-- Claim C5, counterexample: the claim says changing ANY one of `off`, `va`,
`pid`, ciphertext or tag makes decryption fail.  Changing `va` from 0x10000 to
0x10001 — a different virtual address in the same page — leaves the nonce
unchanged (only the high 24 bits of the page-masked address enter it), and
`decrypt_swap_from` still succeeds, returning the original page. -/
theorem c5_same_page_vaddr_change_still_decrypts :
    (afterEncrypt loaderHalExample pageZero 0 0x10000 2).decrypt_swap_from 0 0x10001 2
      = .ok pageZero :=
  decrypt_after_encrypt_same_nonce loaderHalExample pageZero 0 0x10000 0x10001 2
    pageZero_length (by decide) (by decide)

/-- Claim C6: the spec says every flush of the working page encrypts and maps
it at `(working_swap_offset * PAGE, page_of(last_dst_vaddr), pid)` where
`last_dst_vaddr` is the last virtual address copied into the buffer.  The code
passes `dst_page_vaddr & !(PAGE_SIZE - 1)` instead — the NEW section's page at
the section-boundary flush (phase1.rs line 531) and the boundary just reached
at the mid-section wrap flush (line 593).  Running the transcoder on the
spec's own scenario (sections `virt 0x10FF0 len 0x20` and `virt 0x11010 len
0x20`, pid 2): the first flush holds the data copied at virtual page 0x10000
but is encrypted and mapped at 0x11000, so BOTH swap pages end up mapped to
virtual page 0x11000 and page 0x10000 is never mapped — contradicting the
source's own comment that swap offsets correlate 1:1 with virtual destination
addresses. -/
theorem c6_flush_binds_wrong_virtual_page :
    (match runIniS (fun _ => 0x11) 2 0 0 [⟨0x10FF0, 0x20, 0⟩, ⟨0x11010, 0x20, 0⟩] with
      | .ok st => (st.encrypts, st.maps)
      | .error _ => ([], [])) =
      ([(0, 0x11000, 2), (4096, 0x11000, 2)], [(0, 0x11000, 2), (4096, 0x11000, 2)]) ∧
    maskPage 0x10FF0 ≠ 0x11000 := by
  refine ⟨by decide, by decide⟩

/-- Claim C7: the claim says every destination byte a NOCOPY section spans is
zero after `copy_processes`, including pages acquired mid-section with
remaining length ≥ PAGE.  The code elides the `bzero` exactly there
(phase1.rs line 442: `if bytes_to_copy < PAGE_SIZE`), and a NOCOPY section
also skips the copy, so the fresh page keeps whatever the uninitialized RAM
held — contradicting the in-code comment "chunk is already zeroed, because we
zeroed the whole page when we got it".  Concretely, for an IniE process with
one NOCOPY section `virt 0x10000 len 0x2000` and RAM junk byte 0xAB, the byte
at virtual address 0x10000 is 0 (first page was zeroed) but the byte at
0x11000 — also spanned by the section — is 0xAB ≠ 0. -/
theorem c7_nocopy_second_page_not_zeroed :
    (match runIniEF true (fun _ => 0) (fun _ _ => 0xAB)
        [⟨0x10000, 0x2000, MINIELF_FLG_NC⟩] with
      | .ok st => (st.destByte 0x10000, st.destByte 0x11000)
      | .error _ => (none, none)) = (some 0, some 0xAB) ∧ (0xAB : Nat) ≠ 0 := by
  refine ⟨by decide, by decide⟩

/-- Claim C8: the claim says `cfg.swap_free_page` is monotonically
non-decreasing across every IniS process, including one whose tag lists zero
sections.  The end-of-process step decrements the counter unguarded whenever
the working buffer is clean (phase1.rs line 636), and a zero-section IniS
never allocated a page, so the counter ends BELOW its starting value: starting
from 5 it ends at 4 (and from 0 the Rust `usize` subtraction would panic).
The spec's own design notes ask for exactly this guard. -/
theorem c8_swap_free_page_decreases_on_empty_inis :
    (match runIniS (fun _ => 0) 2 0 5 ([] : List MiniElfSection) with
      | .ok st => st.swap_free_page
      | .error _ => 999) = 4 ∧ (4 : Nat) < 5 := by
  refine ⟨by decide, by decide⟩

set_option maxRecDepth 40000 in
/-- Claim C9, counterexample: the claim says the recomputed CRC is written at
bytes 16..18 of the XArg record.  On a concrete merged stream the patch writes
the CRC little-endian at bytes 4..6 (phase1.rs line 281:
`merged_arg_slice_u8[4..6]`), while bytes 16..18 hold XArg payload data (here
part of `ram_start`) and do not contain the CRC. -/
theorem c9_crc_not_at_bytes_16_18 :
    (copy_args_crc_patch mergedStreamExample 11 5)[4]? =
      some (crc16X25 (bytesOfWordsLE (((mergedStreamExample.set 2 11).drop 2).take 5)) % 256) ∧
    ¬((copy_args_crc_patch mergedStreamExample 11 5)[16]? =
        some (crc16X25 (bytesOfWordsLE (((mergedStreamExample.set 2 11).drop 2).take 5)) % 256) ∧
      (copy_args_crc_patch mergedStreamExample 11 5)[17]? =
        some (crc16X25 (bytesOfWordsLE (((mergedStreamExample.set 2 11).drop 2).take 5))
          / 2 ^ 8 % 256)) := by
  refine ⟨by decide, by decide⟩

/-- Claim C9 (amended): after the Swap Argument Merger patches the XArg
total-length word, the CRC-16/X25 recomputed over the PATCHED XArg payload is
written back little-endian at the fixed offset where the stream stores it —
bytes 4..6 of the XArg record, the 16-bit field between the 4-byte tag and the
2-byte size — and a reader that checks the stream CRC at that offset accepts
the merged buffer. -/
theorem c9_crc_written_at_bytes_4_6 (merged : List Nat) (arg_index dlen : Nat)
    (hlen : 3 ≤ merged.length) :
    (copy_args_crc_patch merged arg_index dlen)[4]? =
      some (crc16X25 (bytesOfWordsLE (((merged.set 2 arg_index).drop 2).take dlen)) % 256) ∧
    (copy_args_crc_patch merged arg_index dlen)[5]? =
      some (crc16X25 (bytesOfWordsLE (((merged.set 2 arg_index).drop 2).take dlen)) / 2 ^ 8 % 256) ∧
    validateXArgStream (copy_args_crc_patch merged arg_index dlen) dlen = true := by
  set patched := merged.set 2 arg_index with hpat
  set crc := crc16X25 (bytesOfWordsLE ((patched.drop 2).take dlen)) with hcrc
  have hblen : 12 ≤ (bytesOfWordsLE patched).length := by
    rw [bytesOfWordsLE_length]
    have : patched.length = merged.length := List.length_set ..
    omega
  have hout : copy_args_crc_patch merged arg_index dlen =
      ((bytesOfWordsLE patched).set 4 (crc % 256)).set 5 (crc / 2 ^ 8 % 256) := by
    simp only [copy_args_crc_patch, hpat, hcrc]
  have h4 : (copy_args_crc_patch merged arg_index dlen)[4]? = some (crc % 256) := by
    rw [hout, List.getElem?_set_ne (by omega), List.getElem?_set_self (by omega)]
  have h5 : (copy_args_crc_patch merged arg_index dlen)[5]? = some (crc / 2 ^ 8 % 256) := by
    rw [hout, List.getElem?_set_self (by simp only [List.length_set]; omega)]
  refine ⟨h4, h5, ?_⟩
  have hdrop : (copy_args_crc_patch merged arg_index dlen).drop 8 =
      bytesOfWordsLE (patched.drop 2) := by
    rw [hout, List.drop_set_of_lt _ _ (by omega : (5 : Nat) < 8),
      List.drop_set_of_lt _ _ (by omega : (4 : Nat) < 8), bytesOfWordsLE_drop_two]
  have hstored4 : (copy_args_crc_patch merged arg_index dlen).getD 4 0 = crc % 256 := by
    rw [List.getD_eq_getElem?_getD, h4]; rfl
  have hstored5 : (copy_args_crc_patch merged arg_index dlen).getD 5 0 = crc / 2 ^ 8 % 256 := by
    rw [List.getD_eq_getElem?_getD, h5]; rfl
  have hcrclt : crc < 65536 := crc16X25_lt _
  simp only [validateXArgStream, hdrop, bytesOfWordsLE_take, hstored4, hstored5, ← hcrc]
  have heq : crc % 256 + 256 * (crc / 2 ^ 8 % 256) = crc := by omega
  rw [heq]
  simp

/-- Witness for claim C9's theorem on the concrete merged stream. -/
theorem c9_crc_written_at_bytes_4_6_witness :
    (copy_args_crc_patch mergedStreamExample 11 5)[5]? =
      some (crc16X25 (bytesOfWordsLE (((mergedStreamExample.set 2 11).drop 2).take 5))
        / 2 ^ 8 % 256) ∧
    validateXArgStream (copy_args_crc_patch mergedStreamExample 11 5) 5 = true :=
  ⟨(c9_crc_written_at_bytes_4_6 mergedStreamExample 11 5 (by decide)).2.1,
   (c9_crc_written_at_bytes_4_6 mergedStreamExample 11 5 (by decide)).2.2⟩

/-- Claim C10, counterexample: the claim says every IniE, IniF AND IniS tag
rejects a section whose virtual start lies below the previous section's with a
fatal layout error.  The IniS path of `copy_processes` (phase1.rs lines
520-620) performs no ordering check at all — a two-section IniS with virts
0x20000 then 0x10000 is processed to completion — and in the IniF path a
section that stays in FLASH (no W flag) never updates `last_page_vaddr`, so an
IniF with an RX section at 0x30000 followed by a W section at 0x10000 is also
accepted, though both streams violate `section[i].virt ≥ section[i-1].virt`. -/
theorem c10_inis_and_inif_accept_non_monotonic :
    exOk (runIniS (fun _ => 0) 2 0 0 [⟨0x20000, 0x10, 0⟩, ⟨0x10000, 0x10, 0⟩]) = true ∧
    exOk (runIniEF false (fun _ => 0) (fun _ _ => 0)
      [⟨0x30000, 0x100, 0⟩, ⟨0x10000, 0x40, MINIELF_FLG_W⟩]) = true ∧
    (0x10000 : Nat) < 0x20000 ∧ (0x10000 : Nat) < 0x30000 := by
  refine ⟨by decide, by decide, by decide, by decide⟩

/-- Claim C10 (amended): in the IniE path every section is copied to RAM, so
every section is checked against `last_page_vaddr` (phase1.rs line 372) — the
end of the previous section — and panics when below it; consequently every
IniE stream the loader processes to completion has non-decreasing section
start addresses.  For IniF only W-flag sections participate in the check, and
the IniS path performs no ordering check (see the counterexample). -/
theorem c10_inie_accepted_implies_monotonic (srcBytes : Nat → Nat)
    (ram : Nat → Nat → Nat) :
    ∀ (sections : List MiniElfSection) (st : EFState),
      exOk (runIniEFFrom srcBytes ram true st sections) = true →
      List.Chain' (fun a b => a.virt ≤ b.virt) sections := by
  intro sections
  induction sections with
  | nil => intro st _; exact List.chain'_nil
  | cons s rest ih =>
    intro st hok
    rw [runIniEFFrom_cons] at hok
    cases heq : iniefSection srcBytes ram true st s with
    | error e => rw [heq] at hok; dsimp only at hok; simp [exOk] at hok
    | ok st2 =>
      rw [heq] at hok
      dsimp only at hok
      have hchain := ih st2 hok
      rw [List.chain'_cons']
      refine ⟨?_, hchain⟩
      intro b hb
      cases rest with
      | nil => simp at hb
      | cons t r =>
        simp only [List.head?_cons, Option.mem_def, Option.some.injEq] at hb
        subst hb
        rw [runIniEFFrom_cons] at hok
        cases heq2 : iniefSection srcBytes ram true st2 t with
        | error e => rw [heq2] at hok; dsimp only at hok; simp [exOk] at hok
        | ok st3 =>
          have h1 := iniefSection_ok_bounds _ _ _ _ _ heq
          have h2 := iniefSection_ok_bounds _ _ _ _ _ heq2
          omega

/-- Witness for claim C10's theorem: a two-section IniE process that the
loader accepts, whose sections are therefore in non-decreasing virtual
order. -/
theorem c10_inie_accepted_implies_monotonic_witness :
    List.Chain' (fun a b : MiniElfSection => a.virt ≤ b.virt)
      [⟨0x1000, 4, 0⟩, ⟨0x2000, 8, 0⟩] :=
  c10_inie_accepted_implies_monotonic (fun _ => 0) (fun _ _ => 0)
    [⟨0x1000, 4, 0⟩, ⟨0x2000, 8, 0⟩] initEFState (by decide)
